import Mathlib

/-!
Verification of the insightAI codebase-insight system against its
natural-language specification.

The frontend state containers (`CodebaseContext`, `RoleContext`), the
visualization dispatcher and the role-template data are embedded from the
JavaScript/JSON sources.  The backend retrieval core (vector search,
orchestrator, role-template loader, chunking pipeline) is not present in the
source tree; those parts are modelled from the specification text, as marked
on each definition.
-/

namespace InsightAI

/-! ## Codebase record and its operations (frontend `CodebaseContext.jsx`)

The JS state object is
`{ id, status, error, insights, name, uploadType }` with `status` a plain
string among idle/uploading/processing/ready/error.  `insights` holds an
arbitrary payload object, modelled by a type parameter. -/

structure Codebase (ι : Type) where
  id : Option String
  status : String
  error : Option String
  insights : Option ι
  name : String
  uploadType : Option String

/-- Initial state of the provider:
`{ id: null, status: 'idle', error: null, insights: null, name: '', uploadType: null }`. -/
def initialCodebase (ι : Type) : Codebase ι :=
  { id := none, status := "idle", error := none, insights := none,
    name := "", uploadType := none }

/-- `startUpload(name, uploadType)`: spreads the old record and sets
`name`, `uploadType`, `status: 'uploading'`, `error: null`. -/
def startUpload {ι : Type} (name uploadType : String) (c : Codebase ι) : Codebase ι :=
  { c with name := name, uploadType := some uploadType,
           status := "uploading", error := none }

/-- `uploadComplete(id)`: spreads the old record and sets `id`,
`status: 'processing'`. -/
def uploadComplete {ι : Type} (id : String) (c : Codebase ι) : Codebase ι :=
  { c with id := some id, status := "processing" }

/-- `uploadError(error)`: spreads the old record and sets
`status: 'error'`, `error`. -/
def uploadError {ι : Type} (error : String) (c : Codebase ι) : Codebase ι :=
  { c with status := "error", error := some error }

/-- `setInsights(insights)`: spreads the old record and sets `insights`,
`status: 'ready'`. -/
def setInsights {ι : Type} (insights : ι) (c : Codebase ι) : Codebase ι :=
  { c with insights := some insights, status := "ready" }

/-- `resetCodebase()`: replaces the record with the initial state. -/
def resetCodebase {ι : Type} (_ : Codebase ι) : Codebase ι :=
  initialCodebase ι

/-- One operation exposed by the `CodebaseContext` provider. -/
inductive CodebaseOp (ι : Type) where
  | startUpload (name uploadType : String)
  | uploadComplete (id : String)
  | uploadError (error : String)
  | setInsights (insights : ι)
  | resetCodebase

/-- Apply one provider operation to the current record. -/
def applyOp {ι : Type} : CodebaseOp ι → Codebase ι → Codebase ι
  | .startUpload n t => startUpload n t
  | .uploadComplete i => uploadComplete i
  | .uploadError e => uploadError e
  | .setInsights ins => setInsights ins
  | .resetCodebase => resetCodebase

/-- Run a sequence of provider operations from a starting record. -/
def runOps {ι : Type} (ops : List (CodebaseOp ι)) (c : Codebase ι) : Codebase ι :=
  ops.foldl (fun c op => applyOp op c) c

/-- All intermediate records of a run, the starting record included. -/
def stateTrace {ι : Type} (ops : List (CodebaseOp ι)) (c : Codebase ι) :
    List (Codebase ι) :=
  ops.scanl (fun c op => applyOp op c) c

/-- The status strings of a run, in order. -/
def statusTrace {ι : Type} (ops : List (CodebaseOp ι)) (c : Codebase ι) :
    List String :=
  (stateTrace ops c).map Codebase.status

/-- Position of a status string along the lifecycle
idle → uploading → processing → terminal (ready/error). -/
def statusRank (s : String) : Nat :=
  if s = "idle" then 0
  else if s = "uploading" then 1
  else if s = "processing" then 2
  else 3

/-- The five documented status values. -/
def statusValues : List String :=
  ["idle", "uploading", "processing", "ready", "error"]

/-! ## Role selection (frontend `RoleContext.jsx`) -/

structure Role where
  id : String
  name : String
  description : String
deriving DecidableEq

/-- State held by the `RoleContext` provider: the list of available roles and
the id of the currently selected one. -/
structure RoleState where
  roles : List Role
  selectedRole : String
deriving DecidableEq

/-- The default roles hard-coded in the provider's initial state. -/
def defaultRoles : List Role :=
  [{ id := "project_manager", name := "Project Manager",
     description := "Focus on high-level architecture, dependencies, and project structure." },
   { id := "frontend_developer", name := "Frontend Developer",
     description := "Focus on UI components, state management, and frontend architecture." },
   { id := "backend_developer", name := "Backend Developer",
     description := "Focus on API design, data models, and server architecture." },
   { id := "ai_ml_engineer", name := "AI/ML Engineer",
     description := "Focus on ML models, data pipelines, and AI architecture." }]

/-- `changeRole(roleId)`: if `roles.some(role => role.id === roleId)` then set
the selected role and return `true`, else return `false` leaving the state
untouched.  Returned as (result, new state). -/
def changeRole (roleId : String) (s : RoleState) : Bool × RoleState :=
  if s.roles.any (fun role => role.id == roleId) then
    (true, { s with selectedRole := roleId })
  else
    (false, s)

/-! ## Visualization dispatcher (frontend `components/visualizations/index.js`) -/

/-- The React components a visualization type can resolve to; the fallback
constructor stands for the `Unknown visualization type: {type}` element. -/
inductive VisComponent where
  | folderTree
  | dependencyGraph
  | techStack
  | componentHierarchy
  | apiFlow
  | entityRelationship
  | apiDocumentation
  | flowDiagram
  | modelArchitecture
  | pipelineFlow
  | unknownFallback (vtype : String)
deriving DecidableEq

/-- The `visualizationMap` object literal, as an association list in source
order. -/
def visualizationMap : List (String × VisComponent) :=
  [("folder_tree", .folderTree),
   ("dependency_graph", .dependencyGraph),
   ("tech_stack", .techStack),
   ("component_hierarchy", .componentHierarchy),
   ("api_flow", .apiFlow),
   ("entity_relationship", .entityRelationship),
   ("api_documentation", .apiDocumentation),
   ("flow_diagram", .flowDiagram),
   ("model_architecture", .modelArchitecture),
   ("pipeline_flow", .pipelineFlow)]

/-- Property names every plain JS object literal inherits from
`Object.prototype`; indexing `visualizationMap` with one of these yields a
truthy inherited value (`constructor` is `Object`, `__proto__` is
`Object.prototype`, the rest are functions), not `undefined`. -/
def objectPrototypeKeys : List String :=
  ["constructor", "hasOwnProperty", "isPrototypeOf", "propertyIsEnumerable",
   "toLocaleString", "toString", "valueOf", "__proto__",
   "__defineGetter__", "__defineSetter__", "__lookupGetter__",
   "__lookupSetter__"]

/-- What the dispatcher's render attempt produces: a proper visualization
component, or a truthy non-component value fished out of the prototype
chain, whose use as a React component fails to render. -/
inductive RenderedElement where
  | component (comp : VisComponent)
  | nonComponent (vtype : String)
deriving DecidableEq

/-- `Visualization({type, ...})`: `visualizationMap[type] || fallback`.
JS property lookup consults the prototype chain: an own key of the object
literal yields its component; the name of an inherited `Object.prototype`
property yields a truthy non-component value, so `||` does not fall through
to the fallback; only a genuinely absent key yields `undefined` (falsy) and
selects the unknown-type fallback element. -/
def Visualization (vtype : String) : RenderedElement :=
  match visualizationMap.find? (fun p => p.1 == vtype) with
  | some p => .component p.2
  | none =>
    if vtype ∈ objectPrototypeKeys then .nonComponent vtype
    else .component (.unknownFallback vtype)

/-! ## Role templates (`rag/templates/*.json`) and their load-time validation -/

/-- A scalar value appearing in a visualization `config` object. -/
inductive ConfigVal where
  | natVal (n : Nat)
  | boolVal (b : Bool)
deriving DecidableEq

/-- A task's `visualization` object: `{type, config}`. -/
structure VisualizationSpec where
  vtype : String
  config : List (String × ConfigVal)
deriving DecidableEq

/-- One entry of `analysis_tasks`: `{id, type, question, visualization?}`. -/
structure AnalysisTask where
  id : String
  taskType : String
  question : String
  visualization : Option VisualizationSpec
deriving DecidableEq

/-- A role template JSON document. -/
structure RoleTemplate where
  id : String
  name : String
  description : String
  version : String
  promptTemplate : String
  summaryTemplate : String
  analysisTasks : List AnalysisTask
deriving DecidableEq

/-- Single-pass scan collecting the names enclosed in braces; the second
argument holds the characters of the name currently being read (reversed)
when the scan is inside a brace pair.  A brace left unclosed contributes
nothing. -/
def placeholderScan : List Char → Option (List Char) → List String
  | [], _ => []
  | c :: rest, none =>
    if c = '\x7b' then placeholderScan rest (some [])
    else placeholderScan rest none
  | c :: rest, some acc =>
    if c = '\x7d' then acc.reverse.asString :: placeholderScan rest none
    else placeholderScan rest (some (c :: acc))

/-- The named placeholders of a template string, in order of occurrence. -/
def placeholdersOf (s : String) : List String :=
  placeholderScan s.data none

/-- The `project_manager.json` template document. -/
def projectManagerTemplate : RoleTemplate :=
  { id := "project_manager",
    name := "Project Manager",
    description := "Template for Project Manager role",
    version := "1.0.0",
    promptTemplate := "You are analyzing a codebase for a Project Manager. Focus on high-level architecture, dependencies, and project structure.\n\nContext information is below:\n---------------------\n\x7bcontext\x7d\n---------------------\n\nGiven the above context, answer the following question about \x7bfocus\x7d:\n\x7bquestion\x7d",
    summaryTemplate := "Provide a concise summary of the codebase from a project manager perspective. Focus on \x7bfocus\x7d.",
    analysisTasks :=
      [{ id := "project_structure", taskType := "structure",
         question := "What is the overall structure of this project? Identify main components and their relationships.",
         visualization := some { vtype := "folder_tree",
                                 config := [("max_depth", .natVal 3)] } },
       { id := "dependencies", taskType := "dependencies",
         question := "What are the main dependencies of this project and how are they used?",
         visualization := some { vtype := "dependency_graph",
                                 config := [("show_versions", .boolVal true)] } },
       { id := "complexity", taskType := "complexity",
         question := "Which parts of the codebase are most complex and might need refactoring or additional resources?",
         visualization := none },
       { id := "tech_stack", taskType := "technology",
         question := "What technologies and frameworks are used in this project?",
         visualization := some { vtype := "tech_stack",
                                 config := [("grouped", .boolVal true)] } }] }

/-- Modelled from the spec: the data-model section fixes the named
placeholders of a `promptTemplate` as `context`, `focus`, `question`. -/
def requiredPlaceholders : List String := ["context", "focus", "question"]

/-- Boolean equality of two string lists viewed as sets. -/
def sameStringSet (xs ys : List String) : Bool :=
  xs.all (fun x => ys.contains x) && ys.all (fun y => xs.contains y)

/-- Role ids known to the system (the four roles of the role provider). -/
def knownRoleIds : List String := defaultRoles.map Role.id

/-- Modelled from the spec: the Role Template Store (`rag/role_manager.py`,
absent from the source tree) rejects "any template with a malformed
placeholder set, duplicate task ids within a template, or unknown `id`". -/
def validTemplate (t : RoleTemplate) : Bool :=
  sameStringSet (placeholdersOf t.promptTemplate) requiredPlaceholders
    && decide (t.analysisTasks.map AnalysisTask.id).Nodup
    && knownRoleIds.contains t.id

/-- Modelled from the spec: loading a template validates it and rejects it
(returns `none`) when validation fails, so rejection happens at load time. -/
def loadTemplate (t : RoleTemplate) : Option RoleTemplate :=
  if validTemplate t then some t else none

/-! ## Chunks, chunking and ingestion

Modelled from the spec: the ingestion pipeline and indexer
(`rag/pipeline.py`, the parser package) are absent from the source tree.
The spec fixes a chunk record `{id, sourceFileId, ordinal, text, embedding}`,
a chunking policy of "fixed-size sliding windows with overlap", and an
externally injected embedding capability `embed(text) -> vector`.
Vector entries are modelled as rationals. -/

structure Chunk where
  id : String
  sourceFile : String
  ordinal : Nat
  text : String
  embedding : List ℚ
deriving DecidableEq

/-- An immutable source file: `path` and raw content. -/
structure SourceFile where
  path : String
  content : String
deriving DecidableEq

/-- The fixed chunk-size/overlap policy of the chunker. -/
structure ChunkPolicy where
  chunkSize : Nat
  overlap : Nat
deriving DecidableEq

/-- Sliding windows of `size` characters advancing by `stride` (at least one
character per step); the first argument is fuel, set to the content length by
the caller, which suffices because every step consumes at least one
character. -/
def slidingWindows (size stride : Nat) : Nat → List Char → List (List Char)
  | _, [] => []
  | 0, _ => []
  | fuel + 1, c :: rest =>
    ((c :: rest).take size) ::
      slidingWindows size stride fuel ((c :: rest).drop (max stride 1))

/-- Modelled from the spec: chunking is "a pure function of file content and
a fixed chunk-size/overlap policy". -/
def chunkTexts (policy : ChunkPolicy) (content : List Char) : List (List Char) :=
  slidingWindows policy.chunkSize (policy.chunkSize - policy.overlap)
    content.length content

/-- Modelled from the spec: the chunks of one file, with `ordinal` the
position within the file and the embedding provided by the injected
capability. -/
def chunksOfFile (embed : String → List ℚ) (policy : ChunkPolicy)
    (f : SourceFile) : List Chunk :=
  (chunkTexts policy f.content.data).enum.map fun p =>
    { id := f.path ++ "#" ++ toString p.1,
      sourceFile := f.path,
      ordinal := p.1,
      text := p.2.asString,
      embedding := embed p.2.asString }

/-- Modelled from the spec: ingestion walks the files (in whatever order the
worker pool completes them) and produces the chunks of every file. -/
def ingest (embed : String → List ℚ) (policy : ChunkPolicy)
    (files : List SourceFile) : List Chunk :=
  files.flatMap (chunksOfFile embed policy)

/-! ## Vector search with maximal-marginal-relevance diversification

Modelled from the spec: `search(index, queryVector, k, diversify)` returns an
ordered chunk list; with `diversify` it iteratively picks the chunk
maximizing `λ·similarity(query) − (1−λ)·max_similarity(selected)` with
`λ = 1/2`, ties broken by chunk id; without it, by plain query similarity.
Similarity is the inner product, one of the two products the spec names. -/

def similarity (u v : List ℚ) : ℚ :=
  (List.zipWith (fun a b => a * b) u v).sum

/-- Greatest similarity of `c` to any already-selected chunk (zero when
nothing is selected yet). -/
def maxSimTo (selected : List Chunk) (c : Chunk) : ℚ :=
  (selected.map fun s => similarity s.embedding c.embedding).foldr max 0

/-- The spec's default MMR trade-off `λ ≈ 0.5`. -/
def mmrLambda : ℚ := 1 / 2

/-- The maximal-marginal-relevance score of a candidate. -/
def mmrScore (lam : ℚ) (q : List ℚ) (selected : List Chunk) (c : Chunk) : ℚ :=
  lam * similarity q c.embedding - (1 - lam) * maxSimTo selected c

/-- Plain relevance to the query, used when diversification is off. -/
def relevanceScore (q : List ℚ) (c : Chunk) : ℚ :=
  similarity q c.embedding

/-- Of two candidates, the one with the higher score; ties broken in favour
of the smaller chunk id, keeping results reproducible. -/
def betterCandidate (score : Chunk → ℚ) (a b : Chunk) : Chunk :=
  if score b > score a ∨ (score b = score a ∧ b.id < a.id) then b else a

/-- The best-scoring candidate of a list, `none` when the list is empty. -/
def bestCandidate (score : Chunk → ℚ) : List Chunk → Option Chunk
  | [] => none
  | c :: rest => some (rest.foldl (betterCandidate score) c)

/-- Greedy selection loop: repeatedly extract the best-scoring remaining
candidate (the score may depend on what is already selected) until `k`
chunks are picked or the candidates run out. -/
def selectLoop (scoreOf : List Chunk → Chunk → ℚ) :
    Nat → List Chunk → List Chunk → List Chunk
  | 0, _, selected => selected.reverse
  | k + 1, candidates, selected =>
    match bestCandidate (scoreOf selected) candidates with
    | none => selected.reverse
    | some c => selectLoop scoreOf k (candidates.erase c) (c :: selected)

/-- Modelled from the spec: the retrieval entry point
`search(index, queryVector, k, diversify) -> ordered [Chunk]`. -/
def search (index : List Chunk) (q : List ℚ) (k : Nat) (diversify : Bool) :
    List Chunk :=
  selectLoop
    (fun selected c =>
      if diversify then mmrScore mmrLambda q selected c else relevanceScore q c)
    k index []

/-! ## Retrieval & insight orchestrator

Modelled from the spec: the orchestrator (backend RAG pipeline, absent from
the source tree) runs the role's ordered task list sequentially; per task it
retrieves chunks, renders the prompt, invokes the generation capability, and
on `GenerationError` records the task as failed but continues; the run ends
`completed`/`partial`/`failed`, `failed` being reserved for retrieval being
structurally impossible (index missing). -/

/-- Outcome of one call of the generation capability
`generate(prompt) -> text`, which fails with `GenerationError`. -/
inductive GenOutcome where
  | ok (text : String)
  | genError
deriving DecidableEq

/-- The externally injected capabilities: `embed(text) -> vector`,
`generate(prompt) -> text | GenerationError`, and the distinguished summary
generation call seeded with the accumulated answers. -/
structure Capabilities where
  embed : String → List ℚ
  gen : String → GenOutcome
  summarize : List String → String

/-- One produced insight: task id, question, answer and the cited chunk ids
in retrieval rank order. -/
structure InsightResult where
  taskId : String
  question : String
  answer : String
  citedChunkIds : List String
deriving DecidableEq

/-- Terminal status of an orchestration run; `partialSuccess` stands for the
spec's `partial` status. -/
inductive RunStatus where
  | completed
  | partialSuccess
  | failed
deriving DecidableEq

/-- Result of one orchestration run. -/
structure RunResult where
  status : RunStatus
  results : List InsightResult
  failedTasks : List String
  summary : Option String
deriving DecidableEq

/-- Substitute `\x7bname\x7d` placeholders by their values; the second
argument holds the characters of the placeholder name currently being read
(reversed) when inside a brace pair.  Unknown placeholders and an unclosed
brace render as empty. -/
def substPlaceholders (vals : List (String × String)) :
    List Char → Option (List Char) → List Char
  | [], _ => []
  | c :: rest, none =>
    if c = '\x7b' then substPlaceholders vals rest (some [])
    else c :: substPlaceholders vals rest none
  | c :: rest, some acc =>
    if c = '\x7d' then
      (match vals.lookup acc.reverse.asString with
       | some v => v.data
       | none => []) ++ substPlaceholders vals rest none
    else substPlaceholders vals rest (some (c :: acc))

/-- Render the role's prompt template, substituting `context`, `focus` and
`question`. -/
def renderPrompt (t : RoleTemplate) (context focus question : String) :
    String :=
  (substPlaceholders
    [("context", context), ("focus", focus), ("question", question)]
    t.promptTemplate.data none).asString

/-- The spec's default retrieval depth `k = 5`. -/
def defaultK : Nat := 5

/-- The query for one task: `task.question` plus the optional focus. -/
def buildQuery (task : AnalysisTask) (focus : Option String) : String :=
  match focus with
  | some f => task.question ++ " " ++ f
  | none => task.question

/-- Execute one analysis task: retrieve diversified chunks, render the
prompt, invoke the generation capability; `none` marks a `GenerationError`
on that task. -/
def executeTask (caps : Capabilities) (index : List Chunk)
    (tmpl : RoleTemplate) (focus : Option String) (task : AnalysisTask) :
    Option InsightResult :=
  let retrieved := search index (caps.embed (buildQuery task focus)) defaultK true
  let context := String.intercalate "\n" (retrieved.map Chunk.text)
  let prompt := renderPrompt tmpl context (focus.getD "") task.question
  match caps.gen prompt with
  | .ok answer =>
    some { taskId := task.id, question := task.question, answer := answer,
           citedChunkIds := retrieved.map Chunk.id }
  | .genError => none

/-- Execute an orchestration run against an index that may be missing.
A missing index fails the run; otherwise every task executes in order, the
failed ones are recorded, the status is `completed`/`partial` according to
whether every task succeeded, and the summary is produced from the
successful answers. -/
def executeRun (caps : Capabilities) (index : Option (List Chunk))
    (tmpl : RoleTemplate) (focus : Option String) : RunResult :=
  match index with
  | none => { status := .failed, results := [], failedTasks := [], summary := none }
  | some idx =>
    let outcomes := tmpl.analysisTasks.map fun task =>
      (task.id, executeTask caps idx tmpl focus task)
    let results := outcomes.filterMap Prod.snd
    let failures := (outcomes.filter fun o => o.2.isNone).map Prod.fst
    { status := if failures.isEmpty then .completed else .partialSuccess,
      results := results,
      failedTasks := failures,
      summary := some (caps.summarize (results.map InsightResult.answer)) }

/-! ## The insight query boundary operation -/

/-- The typed errors of `getInsights`. -/
inductive InsightsError where
  | notFound
  | notReady
  | roleNotFound
deriving DecidableEq

/-- Per-codebase backend record: lifecycle status and the owned vector
index (present only when ready). -/
structure BackendCodebase where
  status : String
  index : Option (List Chunk)
deriving DecidableEq

/-- A visualization entry of the insights response: `{type, config, task_id}`. -/
structure VisualizationOut where
  vtype : String
  config : List (String × ConfigVal)
  taskId : String
deriving DecidableEq

/-- The `/api/insights` response body `{insights, visualizations, summary}`. -/
structure InsightsResponse where
  insights : List InsightResult
  visualizations : List VisualizationOut
  summary : String
deriving DecidableEq

/-- The visualization entries contributed by the tasks carrying a
visualization spec. -/
def visualizationsOf (tmpl : RoleTemplate) : List VisualizationOut :=
  tmpl.analysisTasks.filterMap fun task =>
    task.visualization.map fun v =>
      { vtype := v.vtype, config := v.config, taskId := task.id }

/-- Modelled from the spec: the insight query
`getInsights(codebaseId, roleId, focus?) -> InsightResult set + summary` or
typed error `{NotFound, NotReady, RoleNotFound}`; a codebase that is not
`ready` never exposes a partial index. -/
def getInsights (registry : List (String × BackendCodebase))
    (templates : List RoleTemplate) (caps : Capabilities)
    (codebaseId roleId : String) (focus : Option String) :
    Except InsightsError InsightsResponse :=
  match registry.lookup codebaseId with
  | none => .error .notFound
  | some cb =>
    if cb.status = "ready" then
      match templates.find? (fun t => t.id == roleId) with
      | none => .error .roleNotFound
      | some tmpl =>
        let r := executeRun caps cb.index tmpl focus
        .ok { insights := r.results,
              visualizations := visualizationsOf tmpl,
              summary := r.summary.getD "" }
    else .error .notReady

/-! ## Support definitions used by the statements below -/

/-- Whether a provider operation resets the `error` field to null
(`startUpload` and `resetCodebase` do; the other operations leave it
untouched or set it). -/
def clearsError {ι : Type} : CodebaseOp ι → Bool
  | .startUpload _ _ => true
  | .resetCodebase => true
  | _ => false

/-- `k` pairwise-low-similarity distinct candidates exist in the index:
a duplicate-free `k`-element sublist of the index whose distinct members
pairwise stay at or below the similarity threshold. -/
def lowSimilaritySelectable (index : List Chunk) (τ : ℚ) (k : Nat) : Prop :=
  ∃ cands : List Chunk, cands.Nodup ∧ cands.length = k ∧
    (∀ c ∈ cands, c ∈ index) ∧
    ∀ a ∈ cands, ∀ b ∈ cands, a ≠ b → similarity a.embedding b.embedding ≤ τ

/-- The diversify conjunct of the retrieval contract, read at threshold `τ`:
whenever `k` distinct low-similarity candidates exist, no two distinct chunks
returned by a diversified search exceed pairwise similarity `τ`. -/
def diversifyBoundedBy (τ : ℚ) : Prop :=
  ∀ (index : List Chunk) (q : List ℚ) (k : Nat),
    lowSimilaritySelectable index τ k →
    ∀ a ∈ search index q k true, ∀ b ∈ search index q k true,
      a ≠ b → similarity a.embedding b.embedding ≤ τ

/-- First chunk of the diversification counterexample family (scale `s`). -/
def cexA (s : ℚ) : Chunk :=
  { id := "a", sourceFile := "f", ordinal := 0, text := "ta",
    embedding := [s, s, 0] }

/-- Second chunk of the counterexample family; same embedding as `cexA s`
(a near-duplicate), larger id. -/
def cexB (s : ℚ) : Chunk :=
  { id := "b", sourceFile := "f", ordinal := 1, text := "tb",
    embedding := [s, s, 0] }

/-- Third chunk of the counterexample family, orthogonal to the others and
to the query. -/
def cexC : Chunk :=
  { id := "c", sourceFile := "f", ordinal := 2, text := "tc",
    embedding := [0, 0, 1] }

/-- Query of the counterexample family. -/
def cexQ (s : ℚ) : List ℚ := [2 * s + 1, 0, 0]

/-- Four-task role template of the spec's partial-failure scenario; the
prompt template renders to the bare task question. -/
def scenarioTemplate : RoleTemplate :=
  { id := "project_manager",
    name := "Scenario",
    description := "partial-failure scenario",
    version := "1.0.0",
    promptTemplate := "\x7bquestion\x7d",
    summaryTemplate := "",
    analysisTasks :=
      [{ id := "t1", taskType := "a", question := "q1", visualization := none },
       { id := "t2", taskType := "b", question := "q2", visualization := none },
       { id := "t3", taskType := "c", question := "q3", visualization := none },
       { id := "t4", taskType := "d", question := "q4", visualization := none }] }

/-- Capabilities of the partial-failure scenario: generation fails with
`GenerationError` exactly on the third task's prompt. -/
def scenarioCaps : Capabilities :=
  { embed := fun _ => [],
    gen := fun p => if p = "q3" then .genError else .ok ("answer to " ++ p),
    summarize := fun answers => String.intercalate "; " answers }

/-! ## Theorems -/

/-- Helper: running one more operation at the end of a sequence. -/
theorem runOps_append {ι : Type} (ops : List (CodebaseOp ι)) (op : CodebaseOp ι)
    (c : Codebase ι) :
    runOps (ops ++ [op]) c = applyOp op (runOps ops c) := by
  simp [runOps, List.foldl_append]

/-- Claim C9: `startUpload(name, uploadType)` modifies only the `name`,
`uploadType`, `status` (set to uploading) and `error` (cleared to null)
fields; `id` and `insights` keep their prior values, so insights from a
previously analyzed codebase stay attached while a new upload is in
flight. -/
theorem startUpload_frame {ι : Type} (c : Codebase ι) (n t : String) :
    (startUpload n t c).id = c.id ∧
    (startUpload n t c).insights = c.insights ∧
    (startUpload n t c).name = n ∧
    (startUpload n t c).uploadType = some t ∧
    (startUpload n t c).status = "uploading" ∧
    (startUpload n t c).error = none :=
  ⟨rfl, rfl, rfl, rfl, rfl, rfl⟩

/-- Claim C8: `changeRole(roleId)` returns true and sets the selected role
to `roleId` exactly when some role in the current roles list has that id;
otherwise it returns false and the state is unchanged. -/
theorem changeRole_spec (s : RoleState) (roleId : String) :
    ((∃ r ∈ s.roles, r.id = roleId) →
      changeRole roleId s = (true, { s with selectedRole := roleId })) ∧
    ((¬ ∃ r ∈ s.roles, r.id = roleId) →
      changeRole roleId s = (false, s)) := by
  constructor
  · intro h
    have hany : s.roles.any (fun role => role.id == roleId) = true := by
      rw [List.any_eq_true]
      obtain ⟨r, hr, hid⟩ := h
      exact ⟨r, hr, by simp [hid]⟩
    simp [changeRole, hany]
  · intro h
    have hany : s.roles.any (fun role => role.id == roleId) = false := by
      rw [List.any_eq_false]
      intro r hr hid
      exact h ⟨r, hr, by simpa using hid⟩
    simp [changeRole, hany]

/-- Claim C10 counterexample: `"constructor"` is not a key of the
visualization map, yet the dispatcher does not render the
unknown-visualization fallback for it — the JS lookup finds the truthy
inherited `Object.prototype` property, `||` never falls through, and a
non-component value is rendered instead (which fails), so the dispatcher is
not total over its input. -/
theorem visualization_prototype_counterexample :
    "constructor" ∉ visualizationMap.map Prod.fst ∧
    Visualization "constructor"
      = RenderedElement.nonComponent "constructor" ∧
    Visualization "constructor"
      ≠ RenderedElement.component
          (VisComponent.unknownFallback "constructor") :=
  ⟨by decide, by decide, by decide⟩

/-- Claim C10 (amended): a type that is a key of the visualization map
renders the mapped component, and an unknown type renders the
unknown-visualization fallback unless it names an inherited
`Object.prototype` property (constructor, toString, __proto__, ...), in
which case the object lookup yields a truthy non-component value, the
fallback is skipped, and rendering fails instead. -/
theorem Visualization_dispatch (vtype : String) :
    (vtype ∈ visualizationMap.map Prod.fst →
      ∃ comp, (vtype, comp) ∈ visualizationMap ∧
        Visualization vtype = RenderedElement.component comp) ∧
    (vtype ∉ visualizationMap.map Prod.fst → vtype ∉ objectPrototypeKeys →
      Visualization vtype
        = RenderedElement.component (VisComponent.unknownFallback vtype)) ∧
    (vtype ∉ visualizationMap.map Prod.fst → vtype ∈ objectPrototypeKeys →
      Visualization vtype = RenderedElement.nonComponent vtype) := by
  have hfind : vtype ∉ visualizationMap.map Prod.fst →
      visualizationMap.find? (fun p => p.1 == vtype) = none := by
    intro h
    rw [List.find?_eq_none]
    intro p hp hpv
    simp only [beq_iff_eq] at hpv
    exact h (List.mem_map.mpr ⟨p, hp, hpv⟩)
  refine ⟨?_, ?_, ?_⟩
  · intro h
    cases hf : visualizationMap.find? (fun p => p.1 == vtype) with
    | none =>
      exfalso
      rw [List.find?_eq_none] at hf
      simp only [List.mem_map] at h
      obtain ⟨p, hp, h1⟩ := h
      exact hf p hp (by simp [h1])
    | some q =>
      have hq := List.find?_some hf
      simp only [beq_iff_eq] at hq
      have hqm : q ∈ visualizationMap := List.mem_of_find?_eq_some hf
      refine ⟨q.2, ?_, ?_⟩
      · have : q = (vtype, q.2) := by
          obtain ⟨q1, q2⟩ := q
          simp only at hq
          simp [hq]
        rwa [this] at hqm
      · simp [Visualization, hf]
  · intro h hp
    simp [Visualization, hfind h, hp]
  · intro h hp
    simp [Visualization, hfind h, hp]

/-- Claim C1 counterexample: the operations are unguarded, so a sequence may
move the status backward — applying `resetCodebase` after `setInsights`
drops the status rank from the terminal stage (`ready`, rank 3) back to
`idle` (rank 0). -/
theorem status_backward_counterexample :
    statusRank (runOps [CodebaseOp.setInsights (), CodebaseOp.resetCodebase]
        (initialCodebase Unit)).status
      < statusRank (runOps [CodebaseOp.setInsights ()]
        (initialCodebase Unit)).status := by
  decide

/-- Claim C1 (amended): each operation unconditionally writes its fixed
target status, so along the intended upload sequence
`startUpload; uploadComplete; (setInsights | uploadError)` the status
progresses monotonically idle → uploading → processing → \x7bready | error\x7d;
arbitrary sequences (re-upload after `ready`, `resetCodebase`) may move it
backward. -/
theorem canonical_run_monotone {ι : Type} (n t i e : String) (ins : ι) :
    (statusTrace [CodebaseOp.startUpload n t, CodebaseOp.uploadComplete i,
        CodebaseOp.setInsights ins] (initialCodebase ι)
      = ["idle", "uploading", "processing", "ready"]) ∧
    (statusTrace [CodebaseOp.startUpload n t, CodebaseOp.uploadComplete i,
        CodebaseOp.uploadError e] (initialCodebase ι)
      = ["idle", "uploading", "processing", "error"]) ∧
    List.Chain' (fun a b => statusRank a < statusRank b)
      ["idle", "uploading", "processing", "ready"] ∧
    List.Chain' (fun a b => statusRank a < statusRank b)
      ["idle", "uploading", "processing", "error"] :=
  ⟨rfl, rfl,
    by simp only [List.chain'_cons, List.chain'_singleton]; decide,
    by simp only [List.chain'_cons, List.chain'_singleton]; decide⟩

/-- Claim C7 counterexample: `setInsights` does not clear a previously
recorded error, so after `uploadError "boom"; setInsights _` the record has
a non-null error message while its status is `ready` — the error is not
accompanying a failure. -/
theorem error_field_counterexample :
    (runOps [CodebaseOp.uploadError "boom", CodebaseOp.setInsights ()]
        (initialCodebase Unit)).error = some "boom" ∧
    (runOps [CodebaseOp.uploadError "boom", CodebaseOp.setInsights ()]
        (initialCodebase Unit)).status = "ready" :=
  ⟨rfl, rfl⟩

/-- Claim C7 (amended): after every sequence of operations from the initial
state the status is one of exactly the five values idle, uploading,
processing, ready, error; the error field is non-null only if an
`uploadError` supplied that message and neither `startUpload` nor
`resetCodebase` ran afterwards — but because `uploadComplete` and
`setInsights` leave the field in place, the non-null message may accompany
a non-failure status. -/
theorem codebase_invariant {ι : Type} (ops : List (CodebaseOp ι)) :
    (runOps ops (initialCodebase ι)).status ∈ statusValues ∧
    ∀ e, (runOps ops (initialCodebase ι)).error = some e →
      ∃ pre post, ops = pre ++ CodebaseOp.uploadError e :: post ∧
        ∀ op ∈ post, clearsError op = false := by
  induction ops using List.reverseRecOn with
  | nil =>
    refine ⟨by simp [runOps, initialCodebase, statusValues], ?_⟩
    intro e he
    simp [runOps, initialCodebase] at he
  | append_singleton ops op ih =>
    rw [runOps_append]
    obtain ⟨ihs, ihe⟩ := ih
    cases op with
    | startUpload n t =>
      refine ⟨by simp [applyOp, startUpload, statusValues], ?_⟩
      intro e he
      simp [applyOp, startUpload] at he
    | uploadComplete i =>
      refine ⟨by simp [applyOp, uploadComplete, statusValues], ?_⟩
      intro e he
      have he' : (runOps ops (initialCodebase ι)).error = some e := he
      obtain ⟨pre, post, hops, hpost⟩ := ihe e he'
      refine ⟨pre, post ++ [CodebaseOp.uploadComplete i], ?_, ?_⟩
      · rw [hops]; simp
      · intro o ho
        rcases List.mem_append.mp ho with h | h
        · exact hpost o h
        · simp only [List.mem_singleton] at h
          subst h
          rfl
    | uploadError e' =>
      refine ⟨by simp [applyOp, uploadError, statusValues], ?_⟩
      intro e he
      have : e' = e := by simpa [applyOp, uploadError] using he
      subst this
      exact ⟨ops, [], by simp, by simp⟩
    | setInsights ins =>
      refine ⟨by simp [applyOp, setInsights, statusValues], ?_⟩
      intro e he
      have he' : (runOps ops (initialCodebase ι)).error = some e := he
      obtain ⟨pre, post, hops, hpost⟩ := ihe e he'
      refine ⟨pre, post ++ [CodebaseOp.setInsights ins], ?_, ?_⟩
      · rw [hops]; simp
      · intro o ho
        rcases List.mem_append.mp ho with h | h
        · exact hpost o h
        · simp only [List.mem_singleton] at h
          subst h
          rfl
    | resetCodebase =>
      refine ⟨by simp [applyOp, resetCodebase, initialCodebase, statusValues], ?_⟩
      intro e he
      simp [applyOp, resetCodebase, initialCodebase] at he

/-- Claim C5: every RoleTemplate that survives loading has a promptTemplate
whose placeholder set is exactly `context`, `focus`, `question`, and
analysisTasks with pairwise-distinct task ids; a violating template is
rejected at load time (the loader returns none), not at query time. -/
theorem loadTemplate_valid (t t' : RoleTemplate)
    (h : loadTemplate t = some t') :
    (∀ p, p ∈ placeholdersOf t'.promptTemplate ↔ p ∈ requiredPlaceholders) ∧
    (t'.analysisTasks.map AnalysisTask.id).Nodup := by
  by_cases hval : validTemplate t = true
  · have ht : t' = t := by simpa [loadTemplate, hval] using h.symm
    subst ht
    simp only [validTemplate, Bool.and_eq_true] at hval
    obtain ⟨⟨h1, h2⟩, _⟩ := hval
    constructor
    · simp only [sameStringSet, Bool.and_eq_true, List.all_eq_true] at h1
      obtain ⟨hxy, hyx⟩ := h1
      intro p
      constructor
      · intro hp
        simpa using hxy p hp
      · intro hp
        simpa using hyx p hp
    · exact of_decide_eq_true h2
  · simp [loadTemplate, hval] at h

set_option maxRecDepth 8000

/-- Witness for claim C5: the `project_manager.json` template passes the
loader, and its placeholder set and task ids satisfy the invariant. -/
theorem loadTemplate_valid_witness :
    loadTemplate projectManagerTemplate = some projectManagerTemplate ∧
    ((∀ p, p ∈ placeholdersOf projectManagerTemplate.promptTemplate ↔
        p ∈ requiredPlaceholders) ∧
      (projectManagerTemplate.analysisTasks.map AnalysisTask.id).Nodup) :=
  ⟨by decide, loadTemplate_valid projectManagerTemplate projectManagerTemplate
    (by decide)⟩

/-- Claim C6: chunk ordinals are a deterministic function of file content
and the chunking policy — two files with identical content get identical
(ordinal, text) sequences — and ingestion output does not depend on worker
interleaving beyond the induced reordering: permuting the file processing
order permutes the produced chunks without changing any chunk. -/
theorem chunk_ordinals_deterministic (embed : String → List ℚ)
    (policy : ChunkPolicy) (f g : SourceFile)
    (files files' : List SourceFile)
    (hc : f.content = g.content) (hp : files.Perm files') :
    ((chunksOfFile embed policy f).map (fun ch => (ch.ordinal, ch.text)) =
      (chunksOfFile embed policy g).map (fun ch => (ch.ordinal, ch.text))) ∧
    (ingest embed policy files).Perm (ingest embed policy files') := by
  constructor
  · simp [chunksOfFile, hc]
  · exact List.Perm.flatMap_right (chunksOfFile embed policy) hp

/-- Witness for claim C6: two files with the same content under different
paths, ingested in the two orders of a two-element worker schedule. -/
theorem chunk_ordinals_deterministic_witness :
    (SourceFile.mk "a.js" "hello world").content =
        (SourceFile.mk "b.js" "hello world").content ∧
    ([SourceFile.mk "a.js" "hello world", SourceFile.mk "b.js" "hello world"].Perm
        [SourceFile.mk "b.js" "hello world", SourceFile.mk "a.js" "hello world"]) ∧
    (((chunksOfFile (fun _ => []) (ChunkPolicy.mk 4 1)
          (SourceFile.mk "a.js" "hello world")).map
        (fun ch => (ch.ordinal, ch.text)) =
      (chunksOfFile (fun _ => []) (ChunkPolicy.mk 4 1)
          (SourceFile.mk "b.js" "hello world")).map
        (fun ch => (ch.ordinal, ch.text))) ∧
      (ingest (fun _ => []) (ChunkPolicy.mk 4 1)
          [SourceFile.mk "a.js" "hello world",
           SourceFile.mk "b.js" "hello world"]).Perm
        (ingest (fun _ => []) (ChunkPolicy.mk 4 1)
          [SourceFile.mk "b.js" "hello world",
           SourceFile.mk "a.js" "hello world"])) :=
  ⟨rfl, by decide,
    chunk_ordinals_deterministic (fun _ => []) (ChunkPolicy.mk 4 1)
      (SourceFile.mk "a.js" "hello world") (SourceFile.mk "b.js" "hello world")
      [SourceFile.mk "a.js" "hello world", SourceFile.mk "b.js" "hello world"]
      [SourceFile.mk "b.js" "hello world", SourceFile.mk "a.js" "hello world"]
      rfl (by decide)⟩

/-- Claim C4: for every codebaseId, roleId and optional focus,
`getInsights` returns an insights-plus-summary response or exactly one of
the typed errors NotFound, NotReady, RoleNotFound, each outcome
characterized by its condition: NotFound for an unknown codebase, NotReady
for a known codebase that is not ready, RoleNotFound for an unknown role of
a ready codebase, and a response exactly when codebase and role resolve. -/
theorem getInsights_typed (registry : List (String × BackendCodebase))
    (templates : List RoleTemplate) (caps : Capabilities)
    (codebaseId roleId : String) (focus : Option String) :
    (getInsights registry templates caps codebaseId roleId focus
        = .error .notFound ↔ registry.lookup codebaseId = none) ∧
    (getInsights registry templates caps codebaseId roleId focus
        = .error .notReady ↔
      ∃ cb, registry.lookup codebaseId = some cb ∧ cb.status ≠ "ready") ∧
    (getInsights registry templates caps codebaseId roleId focus
        = .error .roleNotFound ↔
      ∃ cb, registry.lookup codebaseId = some cb ∧ cb.status = "ready" ∧
        templates.find? (fun t => t.id == roleId) = none) ∧
    ((∃ resp, getInsights registry templates caps codebaseId roleId focus
        = .ok resp) ↔
      ∃ cb tmpl, registry.lookup codebaseId = some cb ∧
        cb.status = "ready" ∧
        templates.find? (fun t => t.id == roleId) = some tmpl) := by
  cases h1 : registry.lookup codebaseId with
  | none =>
    simp [getInsights, h1]
  | some cb =>
    by_cases h2 : cb.status = "ready"
    · cases h3 : templates.find? (fun t => t.id == roleId) with
      | none =>
        simp [getInsights, h1, h2, h3]
      | some tmpl =>
        simp [getInsights, h1, h2, h3]
    · simp [getInsights, h1, h2]

/-- Claim C3: in an orchestration run where generation fails with
`GenerationError` on some but not all tasks, every failed task is recorded,
all tasks still execute (the results are the filterMap of task execution
over the whole ordered task list and are non-empty), the run ends `partial`
rather than `failed`, the top-level summary is still produced from the
successful answers, and a run ends `failed` only when retrieval is
structurally impossible (the index is missing). -/
theorem orchestrator_partial (caps : Capabilities) (idx : List Chunk)
    (tmpl : RoleTemplate) (focus : Option String)
    (hfail : ∃ t ∈ tmpl.analysisTasks,
      executeTask caps idx tmpl focus t = none)
    (hsucc : ∃ t ∈ tmpl.analysisTasks,
      (executeTask caps idx tmpl focus t).isSome = true) :
    (executeRun caps (some idx) tmpl focus).status
        = RunStatus.partialSuccess ∧
    (∀ t ∈ tmpl.analysisTasks, executeTask caps idx tmpl focus t = none →
      t.id ∈ (executeRun caps (some idx) tmpl focus).failedTasks) ∧
    (executeRun caps (some idx) tmpl focus).results
        = tmpl.analysisTasks.filterMap (executeTask caps idx tmpl focus) ∧
    (executeRun caps (some idx) tmpl focus).results ≠ [] ∧
    (executeRun caps (some idx) tmpl focus).summary
        = some (caps.summarize
            ((executeRun caps (some idx) tmpl focus).results.map
              InsightResult.answer)) ∧
    (∀ io : Option (List Chunk),
      (executeRun caps io tmpl focus).status = RunStatus.failed →
        io = none) := by
  obtain ⟨t0, ht0m, ht0⟩ := hfail
  obtain ⟨t1, ht1m, ht1⟩ := hsucc
  have hres : (executeRun caps (some idx) tmpl focus).results
      = tmpl.analysisTasks.filterMap (executeTask caps idx tmpl focus) := by
    simp only [executeRun]
    rw [List.filterMap_map]
    rfl
  have hfailmem : ∀ t ∈ tmpl.analysisTasks,
      executeTask caps idx tmpl focus t = none →
      t.id ∈ (executeRun caps (some idx) tmpl focus).failedTasks := by
    intro t htm ht
    simp only [executeRun]
    refine List.mem_map.mpr ⟨(t.id, executeTask caps idx tmpl focus t), ?_, rfl⟩
    rw [List.mem_filter]
    refine ⟨List.mem_map.mpr ⟨t, htm, rfl⟩, ?_⟩
    simp [ht]
  have hmem0 : (t0.id, executeTask caps idx tmpl focus t0) ∈
      ((tmpl.analysisTasks.map fun task =>
        (task.id, executeTask caps idx tmpl focus task)).filter
          fun o => o.2.isNone) := by
    rw [List.mem_filter]
    refine ⟨List.mem_map.mpr ⟨t0, ht0m, rfl⟩, ?_⟩
    simp [ht0]
  have hemp : (((tmpl.analysisTasks.map fun task =>
      (task.id, executeTask caps idx tmpl focus task)).filter
        fun o => o.2.isNone).map Prod.fst).isEmpty = false :=
    List.isEmpty_eq_false.mpr
      (List.ne_nil_of_mem (List.mem_map.mpr ⟨_, hmem0, rfl⟩))
  have hstatus : (executeRun caps (some idx) tmpl focus).status
      = RunStatus.partialSuccess := by
    simp only [executeRun, hemp]
    simp
  refine ⟨hstatus, hfailmem, hres, ?_, by simp [executeRun], ?_⟩
  · rw [hres]
    intro hnil
    obtain ⟨r, hr⟩ := Option.isSome_iff_exists.mp ht1
    have : r ∈ tmpl.analysisTasks.filterMap (executeTask caps idx tmpl focus) :=
      List.mem_filterMap.mpr ⟨t1, ht1m, hr⟩
    rw [hnil] at this
    simp at this
  · intro io hio
    cases io with
    | none => rfl
    | some idx' =>
      exfalso
      simp only [executeRun] at hio
      rcases hb : (((tmpl.analysisTasks.map fun task =>
          (task.id, executeTask caps idx' tmpl focus task)).filter
            fun o => o.2.isNone).map Prod.fst).isEmpty with _ | _
      · rw [hb] at hio
        simp at hio
      · rw [hb] at hio
        simp at hio

/-- Witness for claim C3, the spec scenario: generation fails for exactly
one of four tasks in a role, so the run is partial with the other three
results present and a summary built from them. -/
theorem orchestrator_partial_witness :
    (∃ t ∈ scenarioTemplate.analysisTasks,
      executeTask scenarioCaps [] scenarioTemplate none t = none) ∧
    (∃ t ∈ scenarioTemplate.analysisTasks,
      (executeTask scenarioCaps [] scenarioTemplate none t).isSome = true) ∧
    ((executeRun scenarioCaps (some []) scenarioTemplate none).status
        = RunStatus.partialSuccess ∧
      (∀ t ∈ scenarioTemplate.analysisTasks,
        executeTask scenarioCaps [] scenarioTemplate none t = none →
        t.id ∈ (executeRun scenarioCaps (some []) scenarioTemplate none).failedTasks) ∧
      (executeRun scenarioCaps (some []) scenarioTemplate none).results
          = scenarioTemplate.analysisTasks.filterMap
              (executeTask scenarioCaps [] scenarioTemplate none) ∧
      (executeRun scenarioCaps (some []) scenarioTemplate none).results ≠ [] ∧
      (executeRun scenarioCaps (some []) scenarioTemplate none).summary
          = some (scenarioCaps.summarize
              ((executeRun scenarioCaps (some []) scenarioTemplate none).results.map
                InsightResult.answer)) ∧
      (∀ io : Option (List Chunk),
        (executeRun scenarioCaps io scenarioTemplate none).status
            = RunStatus.failed → io = none)) :=
  ⟨by decide, by decide,
    orchestrator_partial scenarioCaps [] scenarioTemplate none
      (by decide) (by decide)⟩

/-- Helper: the running best of the greedy fold is one of the fold's
inputs. -/
theorem foldl_betterCandidate_mem (score : Chunk → ℚ) (l : List Chunk)
    (a : Chunk) : l.foldl (betterCandidate score) a ∈ a :: l := by
  induction l generalizing a with
  | nil => simp
  | cons b rest ih =>
    have h := ih (betterCandidate score a b)
    rw [List.foldl_cons]
    rcases List.mem_cons.mp h with h' | h'
    · rw [h']
      unfold betterCandidate
      split
      · simp
      · simp
    · simp [h']

/-- Helper: a best candidate is a member of the candidate list. -/
theorem bestCandidate_mem (score : Chunk → ℚ) (l : List Chunk) (c : Chunk)
    (h : bestCandidate score l = some c) : c ∈ l := by
  cases l with
  | nil => simp [bestCandidate] at h
  | cons a rest =>
    simp only [bestCandidate, Option.some.injEq] at h
    have := foldl_betterCandidate_mem score rest a
    rwa [h] at this

/-- Helper: everything the greedy loop emits comes from the candidates or
from the already-selected accumulator. -/
theorem selectLoop_subset (scoreOf : List Chunk → Chunk → ℚ) (k : Nat)
    (cands sel : List Chunk) :
    ∀ c ∈ selectLoop scoreOf k cands sel, c ∈ cands ∨ c ∈ sel := by
  induction k generalizing cands sel with
  | zero =>
    intro c hc
    right
    simpa [selectLoop] using hc
  | succ k ih =>
    intro c hc
    rw [selectLoop] at hc
    cases hb : bestCandidate (scoreOf sel) cands with
    | none =>
      rw [hb] at hc
      right
      simpa using hc
    | some c0 =>
      rw [hb] at hc
      rcases ih (cands.erase c0) (c0 :: sel) c hc with h | h
      · exact Or.inl (List.mem_of_mem_erase h)
      · rcases List.mem_cons.mp h with h' | h'
        · exact Or.inl (h' ▸ bestCandidate_mem _ _ _ hb)
        · exact Or.inr h'

/-- Helper: the greedy loop emits at most `k` chunks beyond the
accumulator. -/
theorem selectLoop_length (scoreOf : List Chunk → Chunk → ℚ) (k : Nat)
    (cands sel : List Chunk) :
    (selectLoop scoreOf k cands sel).length ≤ k + sel.length := by
  induction k generalizing cands sel with
  | zero => simp [selectLoop]
  | succ k ih =>
    rw [selectLoop]
    cases hb : bestCandidate (scoreOf sel) cands with
    | none =>
      show sel.reverse.length ≤ k + 1 + sel.length
      simp only [List.length_reverse]
      omega
    | some c0 =>
      show (selectLoop scoreOf k (cands.erase c0) (c0 :: sel)).length
        ≤ k + 1 + sel.length
      have := ih (cands.erase c0) (c0 :: sel)
      simp only [List.length_cons] at this
      omega

/-- Claim C2 (amended): `search(index, q, k, diversify)` returns at most `k`
chunks and every returned chunk is a member of the queried index; with
diversify=true selection follows the greedy maximal-marginal-relevance
rule, which reduces redundancy but does not bound the pairwise similarity
of the returned chunks by any fixed nonnegative threshold, even when `k`
distinct pairwise-low-similarity candidates exist. -/
theorem search_bounded (index : List Chunk) (q : List ℚ) (k : Nat)
    (diversify : Bool) :
    (search index q k diversify).length ≤ k ∧
    ∀ c ∈ search index q k diversify, c ∈ index := by
  constructor
  · simpa using selectLoop_length _ k index []
  · intro c hc
    rcases selectLoop_subset _ k index [] c hc with h | h
    · exact h
    · simp at h

/-- Helper: query relevance of the first counterexample chunk. -/
theorem cex_simq_A (s : ℚ) :
    similarity (cexQ s) (cexA s).embedding = 2 * s ^ 2 + s := by
  simp [similarity, cexQ, cexA]
  ring

/-- Helper: query relevance of the second counterexample chunk. -/
theorem cex_simq_B (s : ℚ) :
    similarity (cexQ s) (cexB s).embedding = 2 * s ^ 2 + s := by
  simp [similarity, cexQ, cexB]
  ring

/-- Helper: query relevance of the third counterexample chunk. -/
theorem cex_simq_C (s : ℚ) : similarity (cexQ s) cexC.embedding = 0 := by
  simp [similarity, cexQ, cexC]

/-- Helper: the two near-duplicate chunks have similarity `2·s²`. -/
theorem cex_simAB (s : ℚ) :
    similarity (cexA s).embedding (cexB s).embedding = 2 * s ^ 2 := by
  simp [similarity, cexA, cexB]
  ring

/-- Helper: the third chunk is orthogonal to the first. -/
theorem cex_simAC (s : ℚ) :
    similarity (cexA s).embedding cexC.embedding = 0 := by
  simp [similarity, cexA, cexC]

/-- Helper: the third chunk is orthogonal to the first, other order. -/
theorem cex_simCA (s : ℚ) :
    similarity cexC.embedding (cexA s).embedding = 0 := by
  simp [similarity, cexA, cexC]

/-- Helper: unfolding one successful round of the greedy loop. -/
theorem selectLoop_succ (scoreOf : List Chunk → Chunk → ℚ) (k : Nat)
    (cands sel : List Chunk) (c : Chunk)
    (h : bestCandidate (scoreOf sel) cands = some c) :
    selectLoop scoreOf (k + 1) cands sel
      = selectLoop scoreOf k (cands.erase c) (c :: sel) := by
  rw [selectLoop, h]

/-- Helper: a diversified search over the counterexample index picks the two
near-duplicates and skips the orthogonal chunk, for every scale `s ≥ 1`. -/
theorem search_cex_eval (s : ℚ) (hs : 1 ≤ s) :
    search [cexA s, cexB s, cexC] (cexQ s) 2 true = [cexA s, cexB s] := by
  have hg0A : mmrScore mmrLambda (cexQ s) [] (cexA s) = s ^ 2 + s / 2 := by
    rw [mmrScore, cex_simq_A]
    simp [maxSimTo, mmrLambda]
    ring
  have hg0B : mmrScore mmrLambda (cexQ s) [] (cexB s) = s ^ 2 + s / 2 := by
    rw [mmrScore, cex_simq_B]
    simp [maxSimTo, mmrLambda]
    ring
  have hg0C : mmrScore mmrLambda (cexQ s) [] cexC = 0 := by
    rw [mmrScore, cex_simq_C]
    simp [maxSimTo, mmrLambda]
  have hg1B : mmrScore mmrLambda (cexQ s) [cexA s] (cexB s) = s / 2 := by
    rw [mmrScore, cex_simq_B]
    have hm : maxSimTo [cexA s] (cexB s) = 2 * s ^ 2 := by
      have hab : similarity (cexA s).embedding (cexB s).embedding
          = 2 * s ^ 2 := cex_simAB s
      simp only [maxSimTo, List.map_cons, List.map_nil, List.foldr_cons,
        List.foldr_nil, hab]
      rw [max_eq_left]
      positivity
    rw [hm, mmrLambda]
    ring
  have hg1C : mmrScore mmrLambda (cexQ s) [cexA s] cexC = 0 := by
    rw [mmrScore, cex_simq_C]
    have hm : maxSimTo [cexA s] cexC = 0 := by
      have hac : similarity (cexA s).embedding cexC.embedding = 0 :=
        cex_simAC s
      simp only [maxSimTo, List.map_cons, List.map_nil, List.foldr_cons,
        List.foldr_nil, hac]
      simp
    rw [hm]
    ring
  have hApos : (0 : ℚ) < s ^ 2 + s / 2 := by nlinarith
  have hBpos : (0 : ℚ) < s / 2 := by linarith
  have hAB : betterCandidate (mmrScore mmrLambda (cexQ s) [])
      (cexA s) (cexB s) = cexA s := by
    rw [betterCandidate, if_neg]
    rintro (h | ⟨_, hid⟩)
    · rw [hg0A, hg0B] at h
      exact lt_irrefl _ h
    · rw [show (cexB s).id = "b" from rfl, show (cexA s).id = "a" from rfl] at hid
      exact absurd hid (by rw [String.lt_iff_toList_lt]; decide)
  have hAC : betterCandidate (mmrScore mmrLambda (cexQ s) [])
      (cexA s) cexC = cexA s := by
    rw [betterCandidate, if_neg]
    rintro (h | ⟨heq, _⟩)
    · rw [hg0A, hg0C] at h
      exact absurd h (by linarith)
    · rw [hg0A, hg0C] at heq
      exact absurd heq (by linarith)
  have hb1 : bestCandidate (mmrScore mmrLambda (cexQ s) [])
      [cexA s, cexB s, cexC] = some (cexA s) := by
    simp only [bestCandidate, List.foldl_cons, List.foldl_nil, hAB, hAC]
  have hBC : betterCandidate (mmrScore mmrLambda (cexQ s) [cexA s])
      (cexB s) cexC = cexB s := by
    rw [betterCandidate, if_neg]
    rintro (h | ⟨heq, _⟩)
    · rw [hg1B, hg1C] at h
      exact absurd h (by linarith)
    · rw [hg1B, hg1C] at heq
      exact absurd heq (by linarith)
  have hb2 : bestCandidate (mmrScore mmrLambda (cexQ s) [cexA s])
      [cexB s, cexC] = some (cexB s) := by
    simp only [bestCandidate, List.foldl_cons, List.foldl_nil, hBC]
  have hstep1 : search [cexA s, cexB s, cexC] (cexQ s) 2 true
      = selectLoop (fun selected c => mmrScore mmrLambda (cexQ s) selected c)
          1 ([cexA s, cexB s, cexC].erase (cexA s)) [cexA s] := by
    show selectLoop (fun selected c => mmrScore mmrLambda (cexQ s) selected c)
        (1 + 1) [cexA s, cexB s, cexC] [] = _
    exact selectLoop_succ _ 1 _ _ _ hb1
  have herase1 : [cexA s, cexB s, cexC].erase (cexA s) = [cexB s, cexC] :=
    List.erase_cons_head _ _
  have hstep2 : selectLoop
      (fun selected c => mmrScore mmrLambda (cexQ s) selected c)
        1 [cexB s, cexC] [cexA s]
      = selectLoop (fun selected c => mmrScore mmrLambda (cexQ s) selected c)
          0 ([cexB s, cexC].erase (cexB s)) [cexB s, cexA s] :=
    selectLoop_succ _ 0 _ _ _ hb2
  rw [hstep1, herase1, hstep2]
  rfl

/-- Claim C2 counterexample: for no nonnegative threshold does the
diversified search bound the pairwise similarity of its results, even when
`k` distinct pairwise-low-similarity candidates exist: at scale `s` the
near-duplicate pair (similarity `2·s²`, exceeding any given threshold once
`s` is large) dominates the MMR scores and is returned ahead of the
orthogonal candidate. -/
theorem search_diversify_counterexample :
    ¬ ∃ τ : ℚ, 0 ≤ τ ∧ diversifyBoundedBy τ := by
  rintro ⟨τ, hτ0, hB⟩
  obtain ⟨n, hn⟩ := exists_nat_gt τ
  have hn0 : (0 : ℚ) ≤ (n : ℚ) := Nat.cast_nonneg n
  set s : ℚ := (n : ℚ) + 1 with hsdef
  have hs1 : (1 : ℚ) ≤ s := by
    rw [hsdef]
    linarith
  have hτs : τ < 2 * s ^ 2 := by nlinarith [sq_nonneg (s - 1)]
  have heval := search_cex_eval s hs1
  have hlow : lowSimilaritySelectable [cexA s, cexB s, cexC] τ 2 := by
    refine ⟨[cexA s, cexC], ?_, rfl, ?_, ?_⟩
    · refine List.nodup_cons.mpr ⟨?_, List.nodup_singleton _⟩
      simp only [List.mem_singleton]
      intro h
      have h2 := congrArg Chunk.ordinal h
      simp [cexA, cexC] at h2
    · intro c hc
      simp only [List.mem_cons, List.not_mem_nil, or_false,
        List.mem_singleton] at hc
      rcases hc with rfl | rfl
      · simp
      · simp
    · intro a ha b hb hab
      simp only [List.mem_cons, List.not_mem_nil, or_false,
        List.mem_singleton] at ha hb
      rcases ha with rfl | rfl <;> rcases hb with rfl | rfl
      · exact absurd rfl hab
      · rw [cex_simAC]
        exact hτ0
      · rw [cex_simCA]
        exact hτ0
      · exact absurd rfl hab
  have hmemA : cexA s ∈ search [cexA s, cexB s, cexC] (cexQ s) 2 true := by
    rw [heval]
    simp
  have hmemB : cexB s ∈ search [cexA s, cexB s, cexC] (cexQ s) 2 true := by
    rw [heval]
    simp
  have hABne : cexA s ≠ cexB s := by
    intro h
    have h2 := congrArg Chunk.ordinal h
    simp [cexA, cexB] at h2
  have hcontra := hB [cexA s, cexB s, cexC] (cexQ s) 2 hlow
    (cexA s) hmemA (cexB s) hmemB hABne
  rw [cex_simAB] at hcontra
  linarith

end InsightAI
